import Mathlib

/-
Verification of the resumable paginated extraction subsystem of the
data-warehouse repository: the cursor-based pagination / retry / resume
logic of `raw_funnelfox.py`, the FunnelFox Singer tap client
(`tap_funnelfox/client.py`, `streams.py`), and the Ethoca / Chargeback
alert pagers.

Conventions of the embedding:
- Python `dict` states (the `cursors.json` checkpoint file, Postgres
  tables keyed by a primary key) are modeled as association lists whose
  operations mirror dict assignment / deletion (replace-in-place on an
  existing key, append on a new key).
- Vendor records are opaque to the pager and sink; they are modeled by
  `Nat` identifiers.  Scalar field values of sink rows are modeled as
  `Option String` payloads.
- Python truthiness of optional strings / booleans is made explicit via
  `strTruthy` / `optTruthy`.
- Network effects are modeled by oracles: a function from the request
  cursor (resp. the attempt number) to the response outcome.  `while`
  loops are given a fuel parameter; running out of fuel models a process
  kill ("interrupted run"), which is exactly the granularity at which the
  checkpoint logic must be resume-safe.
-/

set_option autoImplicit false

universe u v

section AssocMap

variable {κ : Type u} {β : Type v} [DecidableEq κ]

/-- Lookup in an association list; models `d.get(k)` on a Python dict
(first matching key wins; dict states built by `aset` have unique keys). -/
def alookup (k : κ) : List (κ × β) → Option β
  | [] => none
  | p :: ps => if p.1 = k then some p.2 else alookup k ps

/-- Key-membership test; models `k in d`. -/
def amem (k : κ) : List (κ × β) → Bool
  | [] => false
  | p :: ps => decide (p.1 = k) || amem k ps

/-- Assignment `d[k] = v`: replaces the value of an existing key in
place, appends a new binding otherwise. -/
def aset (k : κ) (v : β) : List (κ × β) → List (κ × β)
  | [] => [(k, v)]
  | p :: ps => if p.1 = k then (k, v) :: ps else p :: aset k v ps

/-- Deletion `del d[k]`: removes the (unique) binding of `k`. -/
def aerase (k : κ) : List (κ × β) → List (κ × β)
  | [] => []
  | p :: ps => if p.1 = k then ps else p :: aerase k ps

/-- Keys of an association list, in order. -/
def akeys (m : List (κ × β)) : List κ := m.map (·.1)

theorem alookup_aset_self (k : κ) (v : β) (m : List (κ × β)) :
    alookup k (aset k v m) = some v := by
  induction m with
  | nil => simp [aset, alookup]
  | cons p ps ih =>
    by_cases h : p.1 = k <;> simp [aset, alookup, h, ih]

theorem alookup_aset_ne {k k2 : κ} (v : β) (m : List (κ × β)) (h : k2 ≠ k) :
    alookup k2 (aset k v m) = alookup k2 m := by
  have hne : ¬ k = k2 := fun hk => h hk.symm
  induction m with
  | nil => simp [aset, alookup, hne]
  | cons p ps ih =>
    by_cases hp : p.1 = k
    · simp [aset, alookup, hp, hne]
    · simp [aset, alookup, hp, ih]

theorem alookup_aset (k k2 : κ) (v : β) (m : List (κ × β)) :
    alookup k2 (aset k v m) = if k = k2 then some v else alookup k2 m := by
  by_cases h : k = k2
  · subst h; simp [alookup_aset_self]
  · simp [h, alookup_aset_ne v m (fun hk => h hk.symm)]

theorem aset_aset_self (k : κ) (v1 v2 : β) (m : List (κ × β)) :
    aset k v2 (aset k v1 m) = aset k v2 m := by
  induction m with
  | nil => simp [aset]
  | cons p ps ih =>
    by_cases h : p.1 = k <;> simp [aset, h, ih]

theorem alookup_eq_none_of_not_amem {k : κ} {m : List (κ × β)}
    (h : amem k m = false) : alookup k m = none := by
  induction m with
  | nil => rfl
  | cons p ps ih =>
    simp [amem] at h
    simp [alookup, h.1, ih h.2]

theorem amem_iff_mem_akeys (k : κ) (m : List (κ × β)) :
    amem k m = true ↔ k ∈ akeys m := by
  induction m with
  | nil => simp [amem, akeys]
  | cons p ps ih =>
    by_cases h : p.1 = k
    · simp [amem, akeys, h]
    · have hne : ¬ k = p.1 := fun hk => h hk.symm
      simp [amem, akeys, h, hne, ih]

theorem alookup_aerase_ne {k k2 : κ} (m : List (κ × β)) (h : k2 ≠ k) :
    alookup k2 (aerase k m) = alookup k2 m := by
  have hne : ¬ k = k2 := fun hk => h hk.symm
  induction m with
  | nil => rfl
  | cons p ps ih =>
    by_cases hp : p.1 = k
    · simp [aerase, alookup, hp, hne]
    · simp [aerase, alookup, hp, ih]

theorem alookup_aerase_self {k : κ} {m : List (κ × β)}
    (h : (akeys m).Nodup) : alookup k (aerase k m) = none := by
  induction m with
  | nil => rfl
  | cons p ps ih =>
    simp only [akeys, List.map_cons, List.nodup_cons] at h
    by_cases hp : p.1 = k
    · subst hp
      simp only [aerase, if_pos rfl]
      apply alookup_eq_none_of_not_amem
      have hmem : ¬ amem p.1 ps = true := by
        rw [amem_iff_mem_akeys]
        simpa [akeys] using h.1
      simpa using hmem
    · have ihh : alookup k (aerase k ps) = none := ih (by simpa [akeys] using h.2)
      simp [aerase, alookup, hp, ihh]

end AssocMap

section Truthiness

/-- Python truthiness of an optional string (`None` and `""` are falsy). -/
def strTruthy : Option String → Bool
  | none => false
  | some s => decide (s ≠ "")

/-- Python truthiness of an optional boolean (`None` is falsy). -/
def optTruthy : Option Bool → Bool
  | none => false
  | some b => b

/-- Python `a or b` on optional strings: returns `a` when truthy, else `b`. -/
def pyOr (a b : Option String) : Option String :=
  if strTruthy a then a else b

end Truthiness

/-- Saved resume state of one endpoint, as written into `cursors.json` by
`save_cursor` in `raw_funnelfox.py`: a count, plus the cursor and offset
keys when they were supplied. -/
structure CState where
  count : Nat
  cursor : Option String := none
  offset : Option Nat := none
deriving DecidableEq, Repr

/-- Content of the `cursors.json` checkpoint file: a dict from endpoint
name to its saved state. -/
abbrev Cursors := List (String × CState)

/-- Model of `load_cursors` (`raw_funnelfox.py` lines 32-37): reading the
file returns the persisted mapping (file persistence is modeled by the
store value itself). -/
def load_cursors (m : Cursors) : Cursors := m

/-- Model of `save_cursor` (`raw_funnelfox.py` lines 40-50): builds
`{"count": count}`, adds `"cursor"` when the cursor is truthy and
`"offset"` when an offset is given, then assigns `cursors[endpoint]`. -/
def save_cursor (endpoint : String) (cursor : Option String) (count : Nat)
    (offset : Option Nat) (m : Cursors) : Cursors :=
  aset endpoint
    { count := count
      cursor := if strTruthy cursor then cursor else none
      offset := offset } m

/-- Model of `clear_cursor` (`raw_funnelfox.py` lines 53-59): deletes the
endpoint's entry when present. -/
def clear_cursor (endpoint : String) (m : Cursors) : Cursors :=
  if amem endpoint m then aerase endpoint m else m

section Backoff

/-- Backoff wait of `fetch_page` (`raw_funnelfox.py` line 96):
`min(5 * (2 ** retry), 60)`. -/
def fetchPageWait (retry : Nat) : Nat := min (5 * 2 ^ retry) 60

/-- Backoff wait of the per-session retry loop in `fetch_session_replies`
(`raw_funnelfox.py` line 544): `min(2 * (2 ** retry), 30)`. -/
def sessionRepliesWait (retry : Nat) : Nat := min (2 * 2 ^ retry) 30

/-- Internal `wait` state of `FunnelFoxStream.backoff_wait_generator`
(`tap_funnelfox/client.py` lines 108-115): starts at 5 and doubles after
every yield. -/
def backoffWaitState : Nat → Nat
  | 0 => 5
  | n + 1 => backoffWaitState n * 2

/-- Value of the n-th yield of `backoff_wait_generator`: `min(wait, 60)`. -/
def backoffYield (n : Nat) : Nat := min (backoffWaitState n) 60

theorem backoffWaitState_eq (n : Nat) : backoffWaitState n = 5 * 2 ^ n := by
  induction n with
  | zero => rfl
  | succ n ih => simp [backoffWaitState, ih, pow_succ]; ring

end Backoff

/-- C8: the backoff wait of `fetch_page` equals `min(5 * 2^attempt, 60)`,
the wait of `fetch_session_replies` equals `min(2 * 2^attempt, 30)`, both
are monotonically non-decreasing and capped, and the tap client's
`backoff_wait_generator` yields the same non-decreasing capped sequence
`5, 10, 20, 40, 60, 60, ...`. -/
theorem backoff_monotone_capped :
    (∀ n, fetchPageWait n = min (5 * 2 ^ n) 60) ∧
    (∀ n, fetchPageWait n ≤ fetchPageWait (n + 1)) ∧
    (∀ n, fetchPageWait n ≤ 60) ∧
    (∀ n, sessionRepliesWait n = min (2 * 2 ^ n) 30) ∧
    (∀ n, sessionRepliesWait n ≤ sessionRepliesWait (n + 1)) ∧
    (∀ n, sessionRepliesWait n ≤ 30) ∧
    (∀ n, backoffYield n = min (5 * 2 ^ n) 60) ∧
    (∀ n, backoffYield n ≤ backoffYield (n + 1)) ∧
    (∀ n, backoffYield n ≤ 60) ∧
    [backoffYield 0, backoffYield 1, backoffYield 2, backoffYield 3,
      backoffYield 4, backoffYield 5] = [5, 10, 20, 40, 60, 60] := by
  have hpow : ∀ c n : Nat, c * 2 ^ n ≤ c * 2 ^ (n + 1) := by
    intro c n
    exact Nat.mul_le_mul_left c (Nat.pow_le_pow_right (by norm_num) (Nat.le_succ n))
  refine ⟨fun n => rfl, fun n => min_le_min (hpow 5 n) le_rfl,
    fun n => min_le_right _ _, fun n => rfl,
    fun n => min_le_min (hpow 2 n) le_rfl, fun n => min_le_right _ _,
    fun n => by rw [backoffYield, backoffWaitState_eq],
    fun n => ?_, fun n => min_le_right _ _, by decide⟩
  rw [backoffYield, backoffYield, backoffWaitState_eq, backoffWaitState_eq]
  exact min_le_min (hpow 5 n) le_rfl

/-- C10: saving a cursor for endpoint `e` and re-loading yields the entry
`{"count": n, "cursor": c}` for `e`, leaves every other endpoint's entry
unchanged, and `clear_cursor e` removes exactly the entry of `e`, leaving
all other endpoints' saved state unchanged.  The `Nodup` hypothesis is
the Python-dict invariant (keys are unique) that every reachable store
satisfies. -/
theorem checkpoint_store_frame (m : Cursors) (e e2 : String) (c : String)
    (n : Nat) (hnodup : (akeys m).Nodup) (hc : c ≠ "") (he2 : e2 ≠ e) :
    alookup e (load_cursors (save_cursor e (some c) n none m)) =
      some { count := n, cursor := some c, offset := none } ∧
    alookup e2 (load_cursors (save_cursor e (some c) n none m)) = alookup e2 m ∧
    alookup e (load_cursors (clear_cursor e m)) = none ∧
    alookup e2 (load_cursors (clear_cursor e m)) = alookup e2 m := by
  refine ⟨?_, ?_, ?_, ?_⟩
  · simp [load_cursors, save_cursor, strTruthy, hc, alookup_aset_self]
  · simp [load_cursors, save_cursor, alookup_aset_ne _ _ he2]
  · by_cases h : amem e m
    · simp [load_cursors, clear_cursor, h, alookup_aerase_self hnodup]
    · simp only [Bool.not_eq_true] at h
      simp [load_cursors, clear_cursor, h, alookup_eq_none_of_not_amem h]
  · by_cases h : amem e m
    · simp [load_cursors, clear_cursor, h, alookup_aerase_ne _ he2]
    · simp only [Bool.not_eq_true] at h
      simp [load_cursors, clear_cursor, h]

/-- Witness for C10 at a concrete store. -/
theorem checkpoint_store_frame_witness :
    alookup "sessions"
        (load_cursors (save_cursor "sessions" (some "abc") 7 none
          [("funnels", { count := 3, cursor := some "z", offset := none })])) =
      some { count := 7, cursor := some "abc", offset := none } ∧
    alookup "funnels"
        (load_cursors (clear_cursor "sessions"
          [("funnels", { count := 3, cursor := some "z", offset := none })])) =
      alookup "funnels"
        [("funnels", { count := 3, cursor := some "z", offset := none })] := by
  have h := checkpoint_store_frame
    [("funnels", { count := 3, cursor := some "z", offset := none })]
    "sessions" "funnels" "abc" 7 (by decide) (by decide) (by decide)
  exact ⟨h.1, h.2.2.2⟩

/-- Pagination metadata of a FunnelFox list response
(`response["pagination"]`, all keys optional). -/
structure Pagination where
  has_more : Option Bool := none
  next_cursor : Option String := none
  cursor : Option String := none
  total : Option Nat := none
deriving DecidableEq, Repr

/-- Body of one FunnelFox list response: the `data` records (opaque,
modeled by `Nat` identifiers) and the pagination metadata (`data.get("pagination") or {}`
defaults every missing key). -/
structure Page where
  data : List Nat := []
  pagination : Pagination := {}
deriving DecidableEq, Repr

/-- Outcome of a single HTTP attempt, as classified by the `except`
clauses of `fetch_page` / `FunnelFoxStream._request`: a response with a
status code and (on success) a parsed body, or one of the caught
connection-level exceptions. -/
inductive HttpTry where
  | resp (status : Nat) (body : Page)
  | timeout
  | connErr
  | chunkedErr
deriving DecidableEq, Repr

/-- Retryable HTTP status codes shared by `fetch_page`
(`raw_funnelfox.py` line 92) and `FunnelFoxStream.RETRY_STATUS_CODES`
(`tap_funnelfox/client.py` line 57). -/
def RETRY_STATUSES : List Nat := [408, 429, 500, 502, 503, 504, 524]

/-- Attempt classification used by the claim: timeout, connection error,
chunked-encoding error, or an HTTP status in the retryable set. -/
def retryableTry : HttpTry → Bool
  | .resp s _ => decide (s ∈ RETRY_STATUSES)
  | _ => true

/-- Result of a `fetch_page` call: a parsed body, `None` after retry
exhaustion, or a re-raised non-retryable `HTTPError`. -/
inductive FPResult where
  | ok (p : Page)
  | failedNone
  | raised (status : Nat)
deriving DecidableEq, Repr

/-- Observable run of `fetch_page`: how many HTTP attempts were issued
and what the call returned. -/
structure FPRun where
  calls : Nat
  result : FPResult
deriving DecidableEq, Repr

/-- Model of the `for retry in range(max_retries)` loop of `fetch_page`
(`raw_funnelfox.py` lines 79-109) over an oracle `att` giving the outcome
of each attempt.  `raise_for_status` raises for any status >= 400; a
non-retryable status is re-raised; a retryable failure sleeps and retries
unless this was the last iteration, in which case the function returns
`None`.  The fuel is the number of remaining loop iterations. -/
def fetch_page_iter (att : Nat → HttpTry) (maxRetries : Nat) : Nat → Nat → FPRun
  | _, 0 => ⟨0, .failedNone⟩
  | retry, fuel + 1 =>
    match att retry with
    | .resp s body =>
      if s < 400 then ⟨1, .ok body⟩
      else if s ∈ RETRY_STATUSES then
        if retry < maxRetries - 1 then
          let rest := fetch_page_iter att maxRetries (retry + 1) fuel
          ⟨rest.calls + 1, rest.result⟩
        else ⟨1, .failedNone⟩
      else ⟨1, .raised s⟩
    | _ =>
      if retry < maxRetries - 1 then
        let rest := fetch_page_iter att maxRetries (retry + 1) fuel
        ⟨rest.calls + 1, rest.result⟩
      else ⟨1, .failedNone⟩

/-- One `fetch_page(endpoint, params, max_retries)` call. -/
def fetch_page_run (att : Nat → HttpTry) (maxRetries : Nat) : FPRun :=
  fetch_page_iter att maxRetries 0 maxRetries

/-- Result of a `FunnelFoxStream._request` call: a returned response, a
propagated `HTTPError` carrying a status, or a propagated
connection-level exception. -/
inductive TRResult where
  | ok (p : Page)
  | raisedStatus (s : Nat)
  | raisedConn
deriving DecidableEq, Repr

/-- Observable run of `FunnelFoxStream._request`: number of
`requests_session.send` calls issued and the outcome. -/
structure TRRun where
  calls : Nat
  result : TRResult
deriving DecidableEq, Repr

/-- Model of `FunnelFoxStream._request` (`tap_funnelfox/client.py` lines
160-227): `while retries <= MAX_RETRIES`, send; on a retryable status
increment `retries` and retry while `retries <= MAX_RETRIES`, otherwise
fall through to `raise_for_status` (which raises, since every retryable
status is >= 400); on a caught connection exception increment and retry
likewise, re-raising once the budget is exceeded; a non-retryable status
raises via `raise_for_status` at once.  The lines after the loop (a final
unguarded send) are reachable only if the loop guard fails on entry.
Fuel decreases only when the loop continues. -/
def t_request_iter (att : Nat → HttpTry) (maxR : Nat) : Nat → Nat → TRRun
  | _, 0 => ⟨0, .raisedConn⟩
  | retries, fuel + 1 =>
    if retries ≤ maxR then
      match att retries with
      | .resp s body =>
        if s ∈ RETRY_STATUSES then
          if retries + 1 ≤ maxR then
            let rest := t_request_iter att maxR (retries + 1) fuel
            ⟨rest.calls + 1, rest.result⟩
          else ⟨1, .raisedStatus s⟩
        else if 400 ≤ s then ⟨1, .raisedStatus s⟩
        else ⟨1, .ok body⟩
      | _ =>
        if retries + 1 ≤ maxR then
          let rest := t_request_iter att maxR (retries + 1) fuel
          ⟨rest.calls + 1, rest.result⟩
        else ⟨1, .raisedConn⟩
    else
      match att retries with
      | .resp s body => if 400 ≤ s then ⟨1, .raisedStatus s⟩ else ⟨1, .ok body⟩
      | _ => ⟨1, .raisedConn⟩

/-- One `FunnelFoxStream._request` call (`MAX_RETRIES` is `maxR`). -/
def t_request_run (att : Nat → HttpTry) (maxR : Nat) : TRRun :=
  t_request_iter att maxR 0 (maxR + 2)

/-- Successful-return test on a `_request` outcome. -/
def isOkTR : TRResult → Bool
  | .ok _ => true
  | _ => false

theorem mem_retry_not_lt {s : Nat} (h : s ∈ RETRY_STATUSES) : ¬ s < 400 := by
  simp [RETRY_STATUSES] at h
  rcases h with rfl | rfl | rfl | rfl | rfl | rfl | rfl <;> norm_num

theorem fetch_page_iter_retryable (att : Nat → HttpTry) (maxR : Nat)
    (h : ∀ n, retryableTry (att n) = true) :
    ∀ fuel retry, retry + fuel = maxR → 1 ≤ fuel →
      fetch_page_iter att maxR retry fuel = ⟨fuel, .failedNone⟩ := by
  intro fuel
  induction fuel with
  | zero => intro retry _ h1; omega
  | succ f ih =>
    intro retry hsum _
    have hr := h retry
    rcases hatt : att retry with ⟨s, body⟩ | _ | _ | _ <;> rw [hatt] at hr
    · simp only [retryableTry, decide_eq_true_eq] at hr
      have hs : ¬ s < 400 := mem_retry_not_lt hr
      by_cases hf : 1 ≤ f
      · have hlt : retry < maxR - 1 := by omega
        simp only [fetch_page_iter, hatt, if_neg hs, if_pos hr, if_pos hlt]
        rw [ih (retry + 1) (by omega) hf]
      · have hf0 : f = 0 := by omega
        subst hf0
        have hlt : ¬ retry < maxR - 1 := by omega
        simp only [fetch_page_iter, hatt, if_neg hs, if_pos hr, if_neg hlt]
    all_goals
      by_cases hf : 1 ≤ f
      case pos =>
        have hlt : retry < maxR - 1 := by omega
        simp only [fetch_page_iter, hatt, if_pos hlt]
        rw [ih (retry + 1) (by omega) hf]
      case neg =>
        have hf0 : f = 0 := by omega
        subst hf0
        have hlt : ¬ retry < maxR - 1 := by omega
        simp only [fetch_page_iter, hatt, if_neg hlt]

theorem t_request_iter_retryable (att : Nat → HttpTry) (maxR : Nat)
    (h : ∀ n, retryableTry (att n) = true) :
    ∀ fuel retries, retries ≤ maxR → maxR + 2 - retries ≤ fuel →
      (t_request_iter att maxR retries fuel).calls = maxR + 1 - retries ∧
      isOkTR (t_request_iter att maxR retries fuel).result = false := by
  intro fuel
  induction fuel with
  | zero => intro retries hle hf; omega
  | succ f ih =>
    intro retries hle hf
    have hr := h retries
    rcases hatt : att retries with ⟨s, body⟩ | _ | _ | _ <;> rw [hatt] at hr
    · simp only [retryableTry, decide_eq_true_eq] at hr
      by_cases hnext : retries + 1 ≤ maxR
      · have hrec := ih (retries + 1) hnext (by omega)
        simp only [t_request_iter, if_pos hle, hatt, if_pos hr, if_pos hnext]
        exact ⟨by rw [hrec.1]; omega, hrec.2⟩
      · simp only [t_request_iter, if_pos hle, hatt, if_pos hr, if_neg hnext]
        exact ⟨by omega, rfl⟩
    all_goals
      by_cases hnext : retries + 1 ≤ maxR
      case pos =>
        have hrec := ih (retries + 1) hnext (by omega)
        simp only [t_request_iter, if_pos hle, hatt, if_pos hnext]
        exact ⟨by rw [hrec.1]; omega, hrec.2⟩
      case neg =>
        simp only [t_request_iter, if_pos hle, hatt, if_neg hnext]
        exact ⟨by omega, rfl⟩

/-- C2, counterexample: with every attempt failing retryably (a timeout),
`FunnelFoxStream._request` with `MAX_RETRIES = 5` issues 6 underlying
sends, not 5 — the claim that both retry wrappers make exactly
`max_retries` (5) attempts is false for `_request`. -/
theorem retry_budget_counterexample :
    (t_request_run (fun _ => HttpTry.timeout) 5).calls = 6 ∧
    ¬ (t_request_run (fun _ => HttpTry.timeout) 5).calls = 5 := by
  decide

/-- C2, amended: for every request whose every attempt fails with a
retryable error (timeout, connection error, chunked-encoding error, or
HTTP status in {408, 429, 500, 502, 503, 504, 524}), `fetch_page` invokes
the underlying HTTP call exactly `max_retries` (5) times and then returns
`None`, while `FunnelFoxStream._request` invokes the underlying send
exactly `MAX_RETRIES + 1` (6) times and then propagates the failure. -/
theorem retry_budget_amended (att : Nat → HttpTry)
    (h : ∀ n, retryableTry (att n) = true) :
    fetch_page_run att 5 = ⟨5, .failedNone⟩ ∧
    (t_request_run att 5).calls = 6 ∧
    isOkTR (t_request_run att 5).result = false := by
  refine ⟨?_, ?_, ?_⟩
  · exact fetch_page_iter_retryable att 5 h 5 0 rfl (by norm_num)
  · exact (t_request_iter_retryable att 5 h 7 0 (by norm_num) (by norm_num)).1
  · exact (t_request_iter_retryable att 5 h 7 0 (by norm_num) (by norm_num)).2

/-- Witness for C2 (amended) at the always-timeout oracle. -/
theorem retry_budget_amended_witness :
    fetch_page_run (fun _ => HttpTry.timeout) 5 = ⟨5, FPResult.failedNone⟩ ∧
    (t_request_run (fun _ => HttpTry.timeout) 5).calls = 6 := by
  have h := retry_budget_amended (fun _ => HttpTry.timeout) (fun _ => rfl)
  exact ⟨h.1, h.2.1⟩

/-- Termination mode of one `fetch_all` run: the `has_more`-false break
(`completed = True`), the `fetch_page`-returned-`None` break (retry
exhaustion), the `has_more`-true-but-no-cursor break (warning), or a
process kill (fuel exhausted mid-loop). -/
inductive Outcome where
  | completedOk
  | fetchFailed
  | noCursorStop
  | killed
deriving DecidableEq, Repr

/-- Observables of one `fetch_all` run: the accumulated `items` list, the
records successfully handed to `insert_func`, the checkpoint store, the
termination mode, the trace of page-request cursors issued by the loop,
and the value of the `cursor` variable when the loop ended. -/
structure RunResult where
  items : List Nat
  delivered : List Nat
  cursors : Cursors
  outcome : Outcome
  requests : List (Option String)
  finalCursor : Option String
deriving DecidableEq, Repr

/-- Model of the `while True` loop of `fetch_all` (`raw_funnelfox.py`
lines 156-210) over an oracle `api` giving the `fetch_page` result for
each request cursor.  Per iteration: request the page; on `None` save the
current cursor (when truthy) with the cumulative count and break; else
extend `items`, read `has_more` and `next_cursor or cursor`, hand the
page to `insert_func` when present and non-empty (`insertOk` says whether
that call succeeds — a failure is caught and ignored), save the next
cursor when truthy and `has_more` is truthy, then break on falsy
`has_more` (completed), break on falsy next cursor (warning), or continue
with the new cursor.  The initial count probe (line 135) only feeds
progress printing and is not part of the loop.  Fuel 0 models a process
kill at the top of the loop. -/
def fetchAllLoop (api : Option String → Option Page) (hasInsert : Bool)
    (insertOk : List Nat → Bool) (endpoint : String) :
    Nat → Option String → Nat → List Nat → List Nat → Cursors →
    List (Option String) → RunResult
  | 0, cursor, _, items, delivered, cs, reqs =>
    ⟨items, delivered, cs, .killed, reqs, cursor⟩
  | fuel + 1, cursor, totalCount, items, delivered, cs, reqs =>
    let reqs2 := reqs ++ [cursor]
    match api cursor with
    | none =>
      let cs2 :=
        if strTruthy cursor then
          save_cursor endpoint cursor (totalCount + items.length) none cs
        else cs
      ⟨items, delivered, cs2, .fetchFailed, reqs2, cursor⟩
    | some page =>
      let items2 := items ++ page.data
      let has_more := page.pagination.has_more
      let next_cursor := pyOr page.pagination.next_cursor page.pagination.cursor
      let delivered2 :=
        if hasInsert && !page.data.isEmpty && insertOk page.data then
          delivered ++ page.data
        else delivered
      let cs2 :=
        if strTruthy next_cursor && optTruthy has_more then
          save_cursor endpoint next_cursor (totalCount + items2.length) none cs
        else cs
      if !optTruthy has_more then
        ⟨items2, delivered2, cs2, .completedOk, reqs2, cursor⟩
      else if !strTruthy next_cursor then
        ⟨items2, delivered2, cs2, .noCursorStop, reqs2, cursor⟩
      else
        fetchAllLoop api hasInsert insertOk endpoint fuel next_cursor totalCount
          items2 delivered2 cs2 reqs2

/-- Resume-state load at the top of `fetch_all` (lines 144-151): when
resuming and an entry exists, take its count, and its cursor when truthy. -/
def resumeLoad (resume : Bool) (endpoint : String) (cs : Cursors) :
    Option String × Nat :=
  if resume then
    match alookup endpoint cs with
    | some st => (if strTruthy st.cursor then st.cursor else none, st.count)
    | none => (none, 0)
  else (none, 0)

/-- Model of one `fetch_all` call (lines 112-217): load the resume state,
run the loop, and clear the endpoint's checkpoint entry exactly when the
loop set `completed = True`. -/
def fetchAll (api : Option String → Option Page) (hasInsert : Bool)
    (insertOk : List Nat → Bool) (endpoint : String) (fuel : Nat)
    (resume : Bool) (cs : Cursors) : RunResult :=
  let init := resumeLoad resume endpoint cs
  let r := fetchAllLoop api hasInsert insertOk endpoint fuel init.1 init.2 [] [] cs []
  if r.outcome = .completedOk then
    { r with cursors := clear_cursor endpoint r.cursors }
  else r

/-- Shape of a tap response as seen by `FunnelFoxPaginator.get_next_url`:
either a bare list (no pagination) or an object with pagination metadata. -/
structure TapResp where
  isList : Bool := false
  pagination : Pagination := {}
deriving DecidableEq, Repr

/-- Model of `FunnelFoxPaginator.get_next_url` (`tap_funnelfox/client.py`
lines 18-47).  `currentCursor` is the `cursor` query parameter parsed
from the request URL.  The built next-page URL is represented by the
cursor it carries (the only request parameter the stream extracts back
out of it in `get_url_params`). -/
def get_next_url (isList : Bool) (pag : Pagination)
    (currentCursor : Option String) : Option String :=
  if isList then none
  else if !optTruthy pag.has_more then none
  else if !strTruthy pag.next_cursor then none
  else if pag.next_cursor = currentCursor then none
  else pag.next_cursor

/-- Modelled from the spec: the singer-sdk pagination driver (external to
this repository) that drives repeated calls through the paginator,
requesting a page for the current cursor and continuing with the cursor
from `FunnelFoxPaginator.get_next_url` until it returns `None`.  Returns
the trace of requested cursors. -/
def tapPaginate (api : Option String → TapResp) :
    Nat → Option String → List (Option String) → List (Option String)
  | 0, _, reqs => reqs
  | fuel + 1, cursor, reqs =>
    let reqs2 := reqs ++ [cursor]
    let r := api cursor
    match get_next_url r.isList r.pagination cursor with
    | none => reqs2
    | some nxt => tapPaginate api fuel (some nxt) reqs2

/-- Cursor string used by the canonical well-formed stream for page index
`i` (a non-empty, injectively indexed opaque token). -/
def cur (i : Nat) : String := String.mk (List.replicate i 'x')

/-- Page index encoded by a request cursor of the canonical stream. -/
def decodeCur : Option String → Nat
  | none => 0
  | some s => s.length

/-- Page `i` of a canonical stream with the given per-page record lists:
`has_more` is true exactly when a page `i+1` exists, and then the next
cursor is `cur (i+1)`. -/
def mkPage (pages : List (List Nat)) (i : Nat) : Page :=
  { data := pages.getD i []
    pagination :=
      { has_more := some (decide (i + 1 < pages.length))
        next_cursor := if i + 1 < pages.length then some (cur (i + 1)) else none } }

/-- Oracle of the canonical stream: requests with a cursor of page index
`i < N` answer page `i`; anything else fails. -/
def mkApi (pages : List (List Nat)) (c : Option String) : Option Page :=
  if decodeCur c < pages.length then some (mkPage pages (decodeCur c)) else none

theorem cur_length (i : Nat) : (cur i).length = i := by
  simp [cur, String.length]

theorem cur_ne_empty {i : Nat} (h : 1 ≤ i) : cur i ≠ "" := by
  intro heq
  have hl := congrArg String.length heq
  rw [cur_length] at hl
  simp [String.length] at hl
  omega

theorem strTruthy_cur {i : Nat} (h : 1 ≤ i) : strTruthy (some (cur i)) = true := by
  simp [strTruthy, cur_ne_empty h]

theorem decodeCur_cur (i : Nat) : decodeCur (some (cur i)) = i := by
  simp [decodeCur, cur_length]


theorem fetchAllLoop_step_failed (api : Option String → Option Page)
    (hasInsert : Bool) (insertOk : List Nat → Bool) (e : String) (fuel : Nat)
    (c : Option String) (totalCount : Nat) (items delivered : List Nat)
    (cs : Cursors) (reqs : List (Option String)) (hapi : api c = none) :
    fetchAllLoop api hasInsert insertOk e (fuel + 1) c totalCount items
        delivered cs reqs =
      ⟨items, delivered,
        if strTruthy c then
          save_cursor e c (totalCount + items.length) none cs
        else cs,
        Outcome.fetchFailed, reqs ++ [c], c⟩ := by
  simp only [fetchAllLoop, hapi]

theorem fetchAllLoop_step_complete (api : Option String → Option Page)
    (hasInsert : Bool) (insertOk : List Nat → Bool) (e : String) (fuel : Nat)
    (c : Option String) (totalCount : Nat) (items delivered : List Nat)
    (cs : Cursors) (reqs : List (Option String)) (page : Page)
    (hapi : api c = some page)
    (hm : optTruthy page.pagination.has_more = false) :
    fetchAllLoop api hasInsert insertOk e (fuel + 1) c totalCount items
        delivered cs reqs =
      ⟨items ++ page.data,
        if hasInsert && !page.data.isEmpty && insertOk page.data then
          delivered ++ page.data
        else delivered,
        cs, Outcome.completedOk, reqs ++ [c], c⟩ := by
  simp only [fetchAllLoop, hapi, hm]
  simp

theorem fetchAllLoop_step_nocursor (api : Option String → Option Page)
    (hasInsert : Bool) (insertOk : List Nat → Bool) (e : String) (fuel : Nat)
    (c : Option String) (totalCount : Nat) (items delivered : List Nat)
    (cs : Cursors) (reqs : List (Option String)) (page : Page)
    (hapi : api c = some page)
    (hm : optTruthy page.pagination.has_more = true)
    (ht : strTruthy (pyOr page.pagination.next_cursor page.pagination.cursor) = false) :
    fetchAllLoop api hasInsert insertOk e (fuel + 1) c totalCount items
        delivered cs reqs =
      ⟨items ++ page.data,
        if hasInsert && !page.data.isEmpty && insertOk page.data then
          delivered ++ page.data
        else delivered,
        cs, Outcome.noCursorStop, reqs ++ [c], c⟩ := by
  simp only [fetchAllLoop, hapi, hm, ht]
  simp

theorem fetchAllLoop_step_continue (api : Option String → Option Page)
    (hasInsert : Bool) (insertOk : List Nat → Bool) (e : String) (fuel : Nat)
    (c : Option String) (totalCount : Nat) (items delivered : List Nat)
    (cs : Cursors) (reqs : List (Option String)) (page : Page)
    (hapi : api c = some page)
    (hm : optTruthy page.pagination.has_more = true)
    (ht : strTruthy (pyOr page.pagination.next_cursor page.pagination.cursor) = true) :
    fetchAllLoop api hasInsert insertOk e (fuel + 1) c totalCount items
        delivered cs reqs =
      fetchAllLoop api hasInsert insertOk e fuel
        (pyOr page.pagination.next_cursor page.pagination.cursor) totalCount
        (items ++ page.data)
        (if hasInsert && !page.data.isEmpty && insertOk page.data then
          delivered ++ page.data
        else delivered)
        (save_cursor e (pyOr page.pagination.next_cursor page.pagination.cursor)
          (totalCount + (items ++ page.data).length) none cs)
        (reqs ++ [c]) := by
  simp only [fetchAllLoop, hapi, hm, ht]
  simp

theorem insert_all_ok (d l : List Nat) :
    (if true && !l.isEmpty && true then d ++ l else d) = d ++ l := by
  cases l <;> simp

theorem strTruthy_cur_succ (i : Nat) : strTruthy (some (cur (i + 1))) = true :=
  strTruthy_cur (Nat.succ_le_succ (Nat.zero_le i))

theorem save_cursor_truthy {c : Option String} (e : String) (n : Nat)
    (m : Cursors) (h : strTruthy c = true) :
    save_cursor e c n none m = aset e { count := n, cursor := c, offset := none } m := by
  simp [save_cursor, h]

theorem mkPage_data (pages : List (List Nat)) (i : Nat) :
    (mkPage pages i).data = pages.getD i [] := rfl

theorem mkPage_hasMore_true {pages : List (List Nat)} {i : Nat}
    (h : i + 1 < pages.length) :
    optTruthy (mkPage pages i).pagination.has_more = true := by
  simp [mkPage, optTruthy, h]

theorem mkPage_hasMore_false {pages : List (List Nat)} {i : Nat}
    (h : ¬ i + 1 < pages.length) :
    optTruthy (mkPage pages i).pagination.has_more = false := by
  simp [mkPage, optTruthy, h]

theorem mkPage_pyOr_some {pages : List (List Nat)} {i : Nat}
    (h : i + 1 < pages.length) :
    pyOr (mkPage pages i).pagination.next_cursor (mkPage pages i).pagination.cursor =
      some (cur (i + 1)) := by
  simp [mkPage, pyOr, h, strTruthy_cur_succ]

theorem flatten_drop_succ (pages : List (List Nat)) {i : Nat}
    (h : i < pages.length) :
    (pages.drop i).flatten = pages.getD i [] ++ (pages.drop (i + 1)).flatten := by
  rw [List.drop_eq_getElem_cons h, List.flatten_cons, List.getD_eq_getElem _ _ h]

theorem take_drop_succ (pages : List (List Nat)) {i : Nat} (k : Nat)
    (h : i < pages.length) :
    ((pages.drop i).take (k + 1)) = pages.getD i [] :: ((pages.drop (i + 1)).take k) := by
  rw [List.drop_eq_getElem_cons h, List.take_succ_cons, List.getD_eq_getElem _ _ h]

theorem fetchAllLoop_complete (pages : List (List Nat)) (e : String) :
    ∀ fuel i c totalCount items delivered cs reqs,
      decodeCur c = i → i < pages.length → pages.length ≤ i + fuel →
      (fetchAllLoop (mkApi pages) true (fun _ => true) e fuel c totalCount
          items delivered cs reqs).delivered =
        delivered ++ (pages.drop i).flatten ∧
      (fetchAllLoop (mkApi pages) true (fun _ => true) e fuel c totalCount
          items delivered cs reqs).outcome = Outcome.completedOk := by
  intro fuel
  induction fuel with
  | zero => intro i c tc items delivered cs reqs _ hi hN; omega
  | succ fuel ih =>
    intro i c tc items delivered cs reqs hdec hi hN
    have hapi : mkApi pages c = some (mkPage pages i) := by
      simp [mkApi, hdec, hi]
    by_cases hnext : i + 1 < pages.length
    · rw [fetchAllLoop_step_continue (mkApi pages) true (fun _ => true) e fuel c tc
        items delivered cs reqs (mkPage pages i) hapi (mkPage_hasMore_true hnext)
        (by rw [mkPage_pyOr_some hnext]; exact strTruthy_cur_succ i)]
      simp only [mkPage_pyOr_some hnext, mkPage_data, insert_all_ok,
        save_cursor_truthy _ _ _ (strTruthy_cur_succ i)]
      obtain ⟨ih1, ih2⟩ := ih (i + 1) (some (cur (i + 1))) tc
        (items ++ pages.getD i []) (delivered ++ pages.getD i [])
        (aset e { count := tc + (items ++ pages.getD i []).length,
                  cursor := some (cur (i + 1)), offset := none } cs)
        (reqs ++ [c]) (decodeCur_cur _) hnext (by omega)
      refine ⟨?_, ih2⟩
      rw [ih1, flatten_drop_succ pages hi, List.append_assoc]
    · rw [fetchAllLoop_step_complete (mkApi pages) true (fun _ => true) e fuel c tc
        items delivered cs reqs (mkPage pages i) hapi (mkPage_hasMore_false hnext)]
      simp only [mkPage_data, insert_all_ok]
      refine ⟨?_, by trivial⟩
      show delivered ++ pages.getD i [] = delivered ++ (pages.drop i).flatten
      rw [flatten_drop_succ pages hi, List.drop_eq_nil_of_le (by omega)]
      simp

theorem fetchAllLoop_killed (pages : List (List Nat)) (e : String) :
    ∀ k i c totalCount items delivered cs reqs,
      decodeCur c = i → i + k < pages.length →
      (fetchAllLoop (mkApi pages) true (fun _ => true) e k c totalCount
          items delivered cs reqs).delivered =
        delivered ++ ((pages.drop i).take k).flatten ∧
      (fetchAllLoop (mkApi pages) true (fun _ => true) e k c totalCount
          items delivered cs reqs).cursors =
        (if k = 0 then cs else
          aset e { count := totalCount + items.length + ((pages.drop i).take k).flatten.length,
                   cursor := some (cur (i + k)), offset := none } cs) ∧
      (fetchAllLoop (mkApi pages) true (fun _ => true) e k c totalCount
          items delivered cs reqs).outcome = Outcome.killed := by
  intro k
  induction k with
  | zero =>
    intro i c tc items delivered cs reqs hdec hik
    simp [fetchAllLoop]
  | succ k ih =>
    intro i c tc items delivered cs reqs hdec hik
    have hi : i < pages.length := by omega
    have hnext : i + 1 < pages.length := by omega
    have hapi : mkApi pages c = some (mkPage pages i) := by
      simp [mkApi, hdec, hi]
    rw [fetchAllLoop_step_continue (mkApi pages) true (fun _ => true) e k c tc
      items delivered cs reqs (mkPage pages i) hapi (mkPage_hasMore_true hnext)
      (by rw [mkPage_pyOr_some hnext]; exact strTruthy_cur_succ i)]
    simp only [mkPage_pyOr_some hnext, mkPage_data, insert_all_ok,
      save_cursor_truthy _ _ _ (strTruthy_cur_succ i)]
    obtain ⟨ih1, ih2, ih3⟩ := ih (i + 1) (some (cur (i + 1))) tc
      (items ++ pages.getD i []) (delivered ++ pages.getD i [])
      (aset e { count := tc + (items ++ pages.getD i []).length,
                cursor := some (cur (i + 1)), offset := none } cs)
      (reqs ++ [c]) (decodeCur_cur _) (by omega)
    refine ⟨?_, ?_, ih3⟩
    · rw [ih1, take_drop_succ pages k hi, List.flatten_cons, List.append_assoc]
    · rw [ih2]
      have hflat : ((pages.drop i).take (k + 1)).flatten =
          pages.getD i [] ++ ((pages.drop (i + 1)).take k).flatten := by
        rw [take_drop_succ pages k hi, List.flatten_cons]
      by_cases hk : k = 0
      · subst hk
        have hcount : tc + (items ++ pages.getD i []).length =
            tc + items.length + ((pages.drop i).take (0 + 1)).flatten.length := by
          rw [hflat]
          simp
          omega
        simp only [if_true]
        rw [← hcount]
        simp
      · have hcount : tc + (items ++ pages.getD i []).length +
            ((pages.drop (i + 1)).take k).flatten.length =
            tc + items.length + ((pages.drop i).take (k + 1)).flatten.length := by
          rw [hflat]
          simp
          omega
        have hcur : i + 1 + k = i + (k + 1) := by omega
        simp only [if_neg hk, if_neg (Nat.succ_ne_zero k)]
        rw [aset_aset_self, hcount, hcur]


theorem fetchAll_delivered (api : Option String → Option Page)
    (hasInsert : Bool) (insertOk : List Nat → Bool) (e : String) (fuel : Nat)
    (resume : Bool) (cs : Cursors) :
    (fetchAll api hasInsert insertOk e fuel resume cs).delivered =
      (fetchAllLoop api hasInsert insertOk e fuel (resumeLoad resume e cs).1
        (resumeLoad resume e cs).2 [] [] cs []).delivered := by
  simp only [fetchAll]
  by_cases hout : (fetchAllLoop api hasInsert insertOk e fuel
      (resumeLoad resume e cs).1 (resumeLoad resume e cs).2 [] [] cs []).outcome =
      Outcome.completedOk
  · simp only [hout, if_true]
  · simp only [if_neg hout]

theorem fetchAll_items (api : Option String → Option Page)
    (hasInsert : Bool) (insertOk : List Nat → Bool) (e : String) (fuel : Nat)
    (resume : Bool) (cs : Cursors) :
    (fetchAll api hasInsert insertOk e fuel resume cs).items =
      (fetchAllLoop api hasInsert insertOk e fuel (resumeLoad resume e cs).1
        (resumeLoad resume e cs).2 [] [] cs []).items := by
  simp only [fetchAll]
  by_cases hout : (fetchAllLoop api hasInsert insertOk e fuel
      (resumeLoad resume e cs).1 (resumeLoad resume e cs).2 [] [] cs []).outcome =
      Outcome.completedOk
  · simp only [hout, if_true]
  · simp only [if_neg hout]

theorem fetchAll_outcome (api : Option String → Option Page)
    (hasInsert : Bool) (insertOk : List Nat → Bool) (e : String) (fuel : Nat)
    (resume : Bool) (cs : Cursors) :
    (fetchAll api hasInsert insertOk e fuel resume cs).outcome =
      (fetchAllLoop api hasInsert insertOk e fuel (resumeLoad resume e cs).1
        (resumeLoad resume e cs).2 [] [] cs []).outcome := by
  simp only [fetchAll]
  by_cases hout : (fetchAllLoop api hasInsert insertOk e fuel
      (resumeLoad resume e cs).1 (resumeLoad resume e cs).2 [] [] cs []).outcome =
      Outcome.completedOk
  · simp only [hout, if_true]
  · simp only [if_neg hout]

theorem fetchAll_requests (api : Option String → Option Page)
    (hasInsert : Bool) (insertOk : List Nat → Bool) (e : String) (fuel : Nat)
    (resume : Bool) (cs : Cursors) :
    (fetchAll api hasInsert insertOk e fuel resume cs).requests =
      (fetchAllLoop api hasInsert insertOk e fuel (resumeLoad resume e cs).1
        (resumeLoad resume e cs).2 [] [] cs []).requests := by
  simp only [fetchAll]
  by_cases hout : (fetchAllLoop api hasInsert insertOk e fuel
      (resumeLoad resume e cs).1 (resumeLoad resume e cs).2 [] [] cs []).outcome =
      Outcome.completedOk
  · simp only [hout, if_true]
  · simp only [if_neg hout]

theorem fetchAll_finalCursor (api : Option String → Option Page)
    (hasInsert : Bool) (insertOk : List Nat → Bool) (e : String) (fuel : Nat)
    (resume : Bool) (cs : Cursors) :
    (fetchAll api hasInsert insertOk e fuel resume cs).finalCursor =
      (fetchAllLoop api hasInsert insertOk e fuel (resumeLoad resume e cs).1
        (resumeLoad resume e cs).2 [] [] cs []).finalCursor := by
  simp only [fetchAll]
  by_cases hout : (fetchAllLoop api hasInsert insertOk e fuel
      (resumeLoad resume e cs).1 (resumeLoad resume e cs).2 [] [] cs []).outcome =
      Outcome.completedOk
  · simp only [hout, if_true]
  · simp only [if_neg hout]

theorem fetchAll_cursors (api : Option String → Option Page)
    (hasInsert : Bool) (insertOk : List Nat → Bool) (e : String) (fuel : Nat)
    (resume : Bool) (cs : Cursors) :
    (fetchAll api hasInsert insertOk e fuel resume cs).cursors =
      (if (fetchAllLoop api hasInsert insertOk e fuel (resumeLoad resume e cs).1
            (resumeLoad resume e cs).2 [] [] cs []).outcome = Outcome.completedOk then
        clear_cursor e (fetchAllLoop api hasInsert insertOk e fuel
          (resumeLoad resume e cs).1 (resumeLoad resume e cs).2 [] [] cs []).cursors
      else
        (fetchAllLoop api hasInsert insertOk e fuel (resumeLoad resume e cs).1
          (resumeLoad resume e cs).2 [] [] cs []).cursors) := by
  simp only [fetchAll]
  by_cases hout : (fetchAllLoop api hasInsert insertOk e fuel
      (resumeLoad resume e cs).1 (resumeLoad resume e cs).2 [] [] cs []).outcome =
      Outcome.completedOk
  · simp only [hout, if_true]
  · simp only [if_neg hout]

/-- C1, amended: for every sequence of N pages, if a run of `fetch_all`
is interrupted after ingesting page k (1 <= k < N) and a second run
resumes from the checkpoint saved by the first, then — provided every
`insert_func` call succeeds — the records delivered to the sink across
both runs equal those delivered by a single uninterrupted run of all N
pages (as lists, hence as sets ignoring the sink-side `loaded_at`
timestamp): no fetched page is skipped. -/
theorem resume_correctness_amended (pages : List (List Nat)) (e : String)
    (k : Nat) (hk1 : 1 ≤ k) (hkN : k < pages.length) :
    (fetchAll (mkApi pages) true (fun _ => true) e k true []).delivered ++
      (fetchAll (mkApi pages) true (fun _ => true) e (pages.length + 1) true
        (fetchAll (mkApi pages) true (fun _ => true) e k true []).cursors).delivered =
      (fetchAll (mkApi pages) true (fun _ => true) e (pages.length + 1) true []).delivered := by
  obtain ⟨k1, k2, k3⟩ := fetchAllLoop_killed pages e k 0 none 0 [] [] [] []
    rfl (by omega)
  simp only [Nat.zero_add, List.drop_zero, List.length_nil, List.nil_append] at k1 k2
  have hrw0 : fetchAllLoop (mkApi pages) true (fun _ => true) e k
      (resumeLoad true e ([] : Cursors)).1 (resumeLoad true e ([] : Cursors)).2
      [] [] [] [] =
      fetchAllLoop (mkApi pages) true (fun _ => true) e k none 0 [] [] [] [] := rfl
  have hr1d : (fetchAll (mkApi pages) true (fun _ => true) e k true []).delivered =
      (pages.take k).flatten := by
    rw [fetchAll_delivered, hrw0, k1]
  have hr1c : (fetchAll (mkApi pages) true (fun _ => true) e k true []).cursors =
      aset e { count := ((pages.take k).flatten).length,
               cursor := some (cur k), offset := none } [] := by
    rw [fetchAll_cursors, hrw0, k3, k2]
    rw [if_neg (show ¬ (Outcome.killed = Outcome.completedOk) by decide)]
    rw [if_neg (show ¬ k = 0 by omega)]
  obtain ⟨c1, c2⟩ := fetchAllLoop_complete pages e (pages.length + 1) k
    (some (cur k)) ((pages.take k).flatten).length [] []
    (aset e { count := ((pages.take k).flatten).length,
              cursor := some (cur k), offset := none } []) []
    (decodeCur_cur k) hkN (by omega)
  have hr2d : (fetchAll (mkApi pages) true (fun _ => true) e (pages.length + 1)
      true (fetchAll (mkApi pages) true (fun _ => true) e k true []).cursors).delivered =
      (pages.drop k).flatten := by
    rw [hr1c, fetchAll_delivered]
    have hload2 : resumeLoad true e
        (aset e { count := ((pages.take k).flatten).length,
                  cursor := some (cur k), offset := none } []) =
        (some (cur k), ((pages.take k).flatten).length) := by
      simp [resumeLoad, alookup_aset_self, strTruthy_cur hk1]
    rw [hload2]
    exact c1.trans (by simp)
  obtain ⟨f1, f2⟩ := fetchAllLoop_complete pages e (pages.length + 1) 0 none 0
    [] [] [] [] rfl (by omega) (by omega)
  have hfd : (fetchAll (mkApi pages) true (fun _ => true) e (pages.length + 1)
      true []).delivered = pages.flatten := by
    rw [fetchAll_delivered]
    exact f1.trans (by simp)
  rw [hr1d, hr2d, hfd, ← List.flatten_append, List.take_append_drop]

/-- Witness for C1 (amended) on a concrete 2-page stream interrupted
after page 1. -/
theorem resume_correctness_amended_witness :
    (fetchAll (mkApi [[1], [2]]) true (fun _ => true) "funnels" 1 true []).delivered ++
      (fetchAll (mkApi [[1], [2]]) true (fun _ => true) "funnels" 3 true
        (fetchAll (mkApi [[1], [2]]) true (fun _ => true) "funnels" 1 true []).cursors).delivered =
      (fetchAll (mkApi [[1], [2]]) true (fun _ => true) "funnels" 3 true []).delivered :=
  resume_correctness_amended [[1], [2]] "funnels" 1 (by decide) (by decide)

/-- C1, counterexample: when the `insert_func` call for page `[1]` fails
(the exception is caught while the checkpoint still advances), the
interrupted-and-resumed pair of runs delivers only `[2]` to the sink,
whereas the uninterrupted run delivers `[1, 2]`: page 1 was fetched but
its records were never delivered, so the claim's "even when an
insert_func call fails" clause is false. -/
theorem resume_correctness_counterexample :
    (fetchAll (mkApi [[1], [2]]) true (fun l => decide (l ≠ [1])) "funnels" 1 true []).delivered ++
      (fetchAll (mkApi [[1], [2]]) true (fun l => decide (l ≠ [1])) "funnels" 3 true
        (fetchAll (mkApi [[1], [2]]) true (fun l => decide (l ≠ [1])) "funnels" 1 true []).cursors).delivered =
      [2] ∧
    (fetchAll (mkApi [[1], [2]]) true (fun _ => true) "funnels" 3 true []).delivered = [1, 2] ∧
    1 ∈ (fetchAll (mkApi [[1], [2]]) true (fun l => decide (l ≠ [1])) "funnels" 1 true []).items ∧
    ¬ ([2] : List Nat) = [1, 2] := by
  decide

theorem get_next_url_self (isL : Bool) (pag : Pagination) (c : Option String)
    (h : pag.next_cursor = c) : get_next_url isL pag c = none := by
  subst h
  simp [get_next_url]

theorem strTruthy_pyOr (a b : Option String) :
    strTruthy (pyOr a b) = (strTruthy a || strTruthy b) := by
  by_cases h : strTruthy a <;> simp [pyOr, h]

theorem get_next_url_no_cursor (isL : Bool) (pag : Pagination)
    (c : Option String) (h : strTruthy pag.next_cursor = false) :
    get_next_url isL pag c = none := by
  simp [get_next_url, h]

/-- Oracle of the looping-cursor scenario: the first page, and every page
requested with cursor "X", report `has_more = true` and `next_cursor = "X"`. -/
def loopApi : Option String → Option Page := fun c =>
  match c with
  | none =>
    some { data := [1], pagination := { has_more := some true, next_cursor := some "X" } }
  | some s =>
    if s = "X" then
      some { data := [2], pagination := { has_more := some true, next_cursor := some "X" } }
    else none

/-- C3, counterexample: after two consecutive pages (pages 1 and 2) both
report next-cursor "X", the `fetch_all` loop — which has no loop
detection — issues a third and then a fourth page request with cursor
"X" instead of stopping. -/
theorem loop_detection_counterexample :
    (fetchAll loopApi false (fun _ => true) "funnels" 4 false []).requests =
      [none, some "X", some "X", some "X"] ∧
    ((fetchAll loopApi false (fun _ => true) "funnels" 4 false []).requests.count
      (some "X")) = 3 := by
  decide

/-- C3, amended: the loop detection holds for the tap's
`FunnelFoxPaginator` only: whenever the page requested with cursor `x`
again reports next-cursor `x` (two consecutive pages with the same
next-cursor), `get_next_url` returns `None`, so the pager stops after
that second page and never issues a third request, whatever fuel
remains.  (`fetch_all` has no such check; see the counterexample.) -/
theorem loop_detection_amended (api : Option String → TapResp)
    (c0 : Option String) (x : String) (fuel : Nat)
    (h1 : get_next_url (api c0).isList (api c0).pagination c0 = some x)
    (h2 : (api (some x)).pagination.next_cursor = some x) :
    tapPaginate api (fuel + 2) c0 [] = [c0, some x] := by
  have hstop : get_next_url (api (some x)).isList (api (some x)).pagination
      (some x) = none := get_next_url_self _ _ _ h2
  show tapPaginate api (fuel + 1 + 1) c0 [] = [c0, some x]
  simp [tapPaginate, h1, hstop]

/-- Oracle whose every page reports `has_more = true` with next-cursor
"X" (so the page requested with "X" repeats its own cursor). -/
def loopTapApi : Option String → TapResp := fun _ =>
  { isList := false,
    pagination := { has_more := some true, next_cursor := some "X" } }

/-- Witness for C3 (amended) at a concrete looping stream. -/
theorem loop_detection_amended_witness :
    tapPaginate loopTapApi 5 none [] = [none, some "X"] :=
  loop_detection_amended loopTapApi none "X" 3 (by decide) (by decide)

/-- C4: a response with truthy `has_more` but absent/falsy next cursor
terminates the pager at once: the `fetch_all` loop breaks with the
warning outcome (`noCursorStop`), issues no further page request, leaves
the checkpoint store untouched, and is not treated as confirmed
completion (so the checkpoint is not cleared); the tap's
`FunnelFoxPaginator.get_next_url` returns `None` for such a page, ending
pagination. -/
theorem has_more_contract (api : Option String → Option Page)
    (hasInsert : Bool) (insertOk : List Nat → Bool) (e : String) (fuel : Nat)
    (c : Option String) (totalCount : Nat) (items delivered : List Nat)
    (cs : Cursors) (reqs : List (Option String)) (page : Page)
    (hapi : api c = some page)
    (hm : optTruthy page.pagination.has_more = true)
    (hnc : strTruthy (pyOr page.pagination.next_cursor page.pagination.cursor) = false) :
    (fetchAllLoop api hasInsert insertOk e (fuel + 1) c totalCount items
      delivered cs reqs).outcome = Outcome.noCursorStop ∧
    (fetchAllLoop api hasInsert insertOk e (fuel + 1) c totalCount items
      delivered cs reqs).requests = reqs ++ [c] ∧
    (fetchAllLoop api hasInsert insertOk e (fuel + 1) c totalCount items
      delivered cs reqs).cursors = cs ∧
    ¬ (fetchAllLoop api hasInsert insertOk e (fuel + 1) c totalCount items
      delivered cs reqs).outcome = Outcome.completedOk ∧
    (∀ isL c2, get_next_url isL page.pagination c2 = none) := by
  rw [fetchAllLoop_step_nocursor api hasInsert insertOk e fuel c totalCount
    items delivered cs reqs page hapi hm hnc]
  refine ⟨rfl, rfl, rfl, by simp, ?_⟩
  intro isL c2
  apply get_next_url_no_cursor
  rw [strTruthy_pyOr] at hnc
  simp at hnc
  exact hnc.1

/-- Oracle answering every request with a page that has records, truthy
`has_more`, and no cursor of any kind. -/
def noCursorApi : Option String → Option Page := fun _ =>
  some { data := [5], pagination := { has_more := some true } }

/-- Witness for C4 at a concrete contract-violating page. -/
theorem has_more_contract_witness :
    (fetchAllLoop noCursorApi true (fun _ => true) "sessions" 1 none 0 [] [] [] []).outcome =
      Outcome.noCursorStop ∧
    (fetchAllLoop noCursorApi true (fun _ => true) "sessions" 1 none 0 [] [] [] []).requests =
      [none] := by
  have h := has_more_contract noCursorApi true (fun _ => true) "sessions" 0 none
    0 [] [] [] [] { data := [5], pagination := { has_more := some true } }
    rfl rfl rfl
  exact ⟨h.1, h.2.1⟩

theorem fetchAllLoop_requests_extend (api : Option String → Option Page)
    (hasInsert : Bool) (insertOk : List Nat → Bool) (e : String) :
    ∀ fuel c totalCount items delivered cs reqs,
      ∃ t, (fetchAllLoop api hasInsert insertOk e fuel c totalCount items
        delivered cs reqs).requests = reqs ++ t := by
  intro fuel
  induction fuel with
  | zero =>
    intro c tc items delivered cs reqs
    exact ⟨[], by simp [fetchAllLoop]⟩
  | succ fuel ih =>
    intro c tc items delivered cs reqs
    cases hapi : api c with
    | none =>
      refine ⟨[c], ?_⟩
      rw [fetchAllLoop_step_failed api hasInsert insertOk e fuel c tc items
        delivered cs reqs hapi]
    | some page =>
      by_cases hm : optTruthy page.pagination.has_more = true
      · by_cases ht : strTruthy (pyOr page.pagination.next_cursor
            page.pagination.cursor) = true
        · rw [fetchAllLoop_step_continue api hasInsert insertOk e fuel c tc
            items delivered cs reqs page hapi hm ht]
          obtain ⟨t, htt⟩ := ih
            (pyOr page.pagination.next_cursor page.pagination.cursor) tc
            (items ++ page.data)
            (if hasInsert && !page.data.isEmpty && insertOk page.data then
              delivered ++ page.data else delivered)
            (save_cursor e (pyOr page.pagination.next_cursor page.pagination.cursor)
              (tc + (items ++ page.data).length) none cs)
            (reqs ++ [c])
          exact ⟨c :: t, by rw [htt]; simp⟩
        · rw [Bool.not_eq_true] at ht
          rw [fetchAllLoop_step_nocursor api hasInsert insertOk e fuel c tc
            items delivered cs reqs page hapi hm ht]
          exact ⟨[c], rfl⟩
      · rw [Bool.not_eq_true] at hm
        rw [fetchAllLoop_step_complete api hasInsert insertOk e fuel c tc
          items delivered cs reqs page hapi hm]
        exact ⟨[c], rfl⟩

theorem fetchAllLoop_requests_head (api : Option String → Option Page)
    (hasInsert : Bool) (insertOk : List Nat → Bool) (e : String) (fuel : Nat)
    (c : Option String) (totalCount : Nat) (items delivered : List Nat)
    (cs : Cursors) (reqs : List (Option String)) :
    ∃ t, (fetchAllLoop api hasInsert insertOk e (fuel + 1) c totalCount items
      delivered cs reqs).requests = reqs ++ c :: t := by
  cases hapi : api c with
  | none =>
    refine ⟨[], ?_⟩
    rw [fetchAllLoop_step_failed api hasInsert insertOk e fuel c totalCount
      items delivered cs reqs hapi]
  | some page =>
    by_cases hm : optTruthy page.pagination.has_more = true
    · by_cases ht : strTruthy (pyOr page.pagination.next_cursor
          page.pagination.cursor) = true
      · rw [fetchAllLoop_step_continue api hasInsert insertOk e fuel c
          totalCount items delivered cs reqs page hapi hm ht]
        obtain ⟨t, htt⟩ := fetchAllLoop_requests_extend api hasInsert insertOk e
          fuel (pyOr page.pagination.next_cursor page.pagination.cursor)
          totalCount (items ++ page.data)
          (if hasInsert && !page.data.isEmpty && insertOk page.data then
            delivered ++ page.data else delivered)
          (save_cursor e (pyOr page.pagination.next_cursor page.pagination.cursor)
            (totalCount + (items ++ page.data).length) none cs)
          (reqs ++ [c])
        exact ⟨t, by rw [htt]; simp⟩
      · rw [Bool.not_eq_true] at ht
        rw [fetchAllLoop_step_nocursor api hasInsert insertOk e fuel c
          totalCount items delivered cs reqs page hapi hm ht]
        exact ⟨[], rfl⟩
    · rw [Bool.not_eq_true] at hm
      rw [fetchAllLoop_step_complete api hasInsert insertOk e fuel c totalCount
        items delivered cs reqs page hapi hm]
      exact ⟨[], rfl⟩

/-- C5, amended (the claim holds for `fetch_all` only, see the
counterexample for the Ethoca / Chargeback pagers): when a page has zero
records but truthy `has_more` and a truthy next cursor `nc`, `fetch_all`
does not treat the empty page as completion: its very next page request
is issued with cursor `nc`. -/
theorem empty_page_continuation (api : Option String → Option Page)
    (hasInsert : Bool) (insertOk : List Nat → Bool) (e : String) (fuel : Nat)
    (c nc : Option String) (totalCount : Nat) (items delivered : List Nat)
    (cs : Cursors) (reqs : List (Option String)) (page : Page)
    (hapi : api c = some page) (_hdata : page.data = [])
    (hm : optTruthy page.pagination.has_more = true)
    (hnc : pyOr page.pagination.next_cursor page.pagination.cursor = nc)
    (ht : strTruthy nc = true) :
    (fetchAllLoop api hasInsert insertOk e (fuel + 2) c totalCount items
      delivered cs reqs).requests[reqs.length + 1]? = some nc := by
  have ht2 : strTruthy (pyOr page.pagination.next_cursor
      page.pagination.cursor) = true := by rw [hnc]; exact ht
  rw [show fuel + 2 = (fuel + 1) + 1 from rfl]
  rw [fetchAllLoop_step_continue api hasInsert insertOk e (fuel + 1) c
    totalCount items delivered cs reqs page hapi hm ht2]
  rw [hnc]
  obtain ⟨t, htt⟩ := fetchAllLoop_requests_head api hasInsert insertOk e fuel
    nc totalCount (items ++ page.data)
    (if hasInsert && !page.data.isEmpty && insertOk page.data then
      delivered ++ page.data else delivered)
    (save_cursor e nc (totalCount + (items ++ page.data).length) none cs)
    (reqs ++ [c])
  rw [htt]
  have hassoc : (reqs ++ [c]) ++ nc :: t = reqs ++ (c :: nc :: t) := by simp
  rw [hassoc, List.getElem?_append_right (by omega)]
  simp

/-- Oracle with an empty first page that still indicates more pages. -/
def emptyPageApi : Option String → Option Page := fun c =>
  match c with
  | none =>
    some { data := [], pagination := { has_more := some true, next_cursor := some "N" } }
  | some _ => some { data := [9], pagination := { has_more := some false } }

/-- Witness for C5 (amended) on the concrete sparse stream. -/
theorem empty_page_continuation_witness :
    (fetchAllLoop emptyPageApi true (fun _ => true) "sessions" 2 none 0 [] []
      [] []).requests[1]? = some (some "N") := by
  have h := empty_page_continuation emptyPageApi true (fun _ => true)
    "sessions" 0 none (some "N") 0 [] [] [] []
    { data := [], pagination := { has_more := some true, next_cursor := some "N" } }
    rfl rfl rfl rfl (by decide)
  exact h

/-- Response of the Ethoca alerts API as consumed by
`EthocaClient.iter_alerts` (`tap_ethoca/client.py` lines 176-215): the
`alerts` records and `pagination.totalPages` (absent defaults to 1). -/
structure EthocaResp where
  alerts : List Nat := []
  totalPages : Option Nat := none
deriving DecidableEq, Repr

/-- Model of `EthocaClient.iter_alerts`: starting at page 1, request the
page; break when `alerts` is empty (before consulting pagination),
otherwise yield the alerts and continue while `page < totalPages`.
Returns the yielded records and the trace of requested page numbers. -/
def ethoca_iter_alerts (api : Nat → EthocaResp) :
    Nat → Nat → List Nat → List Nat → List Nat × List Nat
  | 0, _, yielded, reqs => (yielded, reqs)
  | fuel + 1, page, yielded, reqs =>
    let reqs2 := reqs ++ [page]
    let resp := api page
    if resp.alerts.isEmpty then (yielded, reqs2)
    else
      let yielded2 := yielded ++ resp.alerts
      if resp.totalPages.getD 1 ≤ page then (yielded2, reqs2)
      else ethoca_iter_alerts api fuel (page + 1) yielded2 reqs2

/-- Response of the Chargeback.io alerts API as consumed by
`ChargebackClient.iter_alerts` (`tap_chargeback/client.py` lines
119-152): the `results` records and the `next` page URL. -/
structure CbResp where
  results : List Nat := []
  next : Option String := none
deriving DecidableEq, Repr

/-- Model of `ChargebackClient.iter_alerts`: starting at page 1, request
the page; break when `results` is empty (before consulting `next`),
otherwise yield and continue while `next` is non-null. -/
def chargeback_iter_alerts (api : Nat → CbResp) :
    Nat → Nat → List Nat → List Nat → List Nat × List Nat
  | 0, _, yielded, reqs => (yielded, reqs)
  | fuel + 1, page, yielded, reqs =>
    let reqs2 := reqs ++ [page]
    let resp := api page
    if resp.results.isEmpty then (yielded, reqs2)
    else
      let yielded2 := yielded ++ resp.results
      match resp.next with
      | none => (yielded2, reqs2)
      | some _ => chargeback_iter_alerts api fuel (page + 1) yielded2 reqs2

/-- Sparse Ethoca stream: page 1 empty, totalPages = 2, page 2 non-empty. -/
def sparseEthocaApi : Nat → EthocaResp := fun p =>
  if p = 1 then { alerts := [], totalPages := some 2 }
  else { alerts := [7], totalPages := some 2 }

/-- Sparse Chargeback stream: page 1 empty with a non-null next link. -/
def sparseCbApi : Nat → CbResp := fun p =>
  if p = 1 then { results := [], next := some "page2" }
  else { results := [9], next := none }

/-- C5, counterexample: with page 1 empty but pagination indicating a
second page (totalPages = 2, resp. a non-null `next`), both
`EthocaClient.iter_alerts` and `ChargebackClient.iter_alerts` stop at
the empty page, yield nothing, and never request page 2 — the empty page
is treated as completion, contrary to the claim. -/
theorem empty_page_counterexample :
    ethoca_iter_alerts sparseEthocaApi 5 1 [] [] = ([], [1]) ∧
    chargeback_iter_alerts sparseCbApi 5 1 [] [] = ([], [1]) ∧
    (sparseEthocaApi 1).totalPages = some 2 ∧
    ¬ (sparseEthocaApi 2).alerts = [] ∧
    ¬ (sparseCbApi 1).next = none ∧
    ¬ (sparseCbApi 2).results = [] := by
  decide

section AssocMapMore

variable {κ : Type u} {β : Type v} [DecidableEq κ]

theorem akeys_aset (k : κ) (v : β) (m : List (κ × β)) :
    akeys (aset k v m) = if amem k m then akeys m else akeys m ++ [k] := by
  induction m with
  | nil => simp [aset, amem, akeys]
  | cons p ps ih =>
    by_cases h : p.1 = k
    · simp [aset, amem, akeys, h]
    · have ha : aset k v (p :: ps) = p :: aset k v ps := by
        simp [aset, h]
      have hmem : amem k (p :: ps) = amem k ps := by
        simp [amem, h]
      rw [ha, hmem]
      show p.1 :: akeys (aset k v ps) =
        if amem k ps then p.1 :: akeys ps else (p.1 :: akeys ps) ++ [k]
      rw [ih]
      by_cases hm : amem k ps = true
      · simp [hm]
      · simp [hm]

theorem nodup_akeys_aset (k : κ) (v : β) (m : List (κ × β))
    (h : (akeys m).Nodup) : (akeys (aset k v m)).Nodup := by
  rw [akeys_aset]
  by_cases hm : amem k m = true
  · simp [hm, h]
  · have hk : k ∉ akeys m := fun hmem => hm ((amem_iff_mem_akeys k m).mpr hmem)
    simp [hm, List.nodup_append, h, hk]

end AssocMapMore

theorem fetchAllLoop_nodup (api : Option String → Option Page)
    (hasInsert : Bool) (insertOk : List Nat → Bool) (e : String) :
    ∀ fuel c totalCount items delivered cs reqs, (akeys cs).Nodup →
      (akeys (fetchAllLoop api hasInsert insertOk e fuel c totalCount items
        delivered cs reqs).cursors).Nodup := by
  intro fuel
  induction fuel with
  | zero =>
    intro c tc items delivered cs reqs h
    simpa [fetchAllLoop] using h
  | succ fuel ih =>
    intro c tc items delivered cs reqs h
    cases hapi : api c with
    | none =>
      rw [fetchAllLoop_step_failed api hasInsert insertOk e fuel c tc items
        delivered cs reqs hapi]
      by_cases hc : strTruthy c = true
      · simp only [hc, if_true]
        exact nodup_akeys_aset _ _ _ h
      · rw [Bool.not_eq_true] at hc
        simp only [hc, Bool.false_eq_true, if_false]
        exact h
    | some page =>
      by_cases hm : optTruthy page.pagination.has_more = true
      · by_cases ht : strTruthy (pyOr page.pagination.next_cursor
            page.pagination.cursor) = true
        · rw [fetchAllLoop_step_continue api hasInsert insertOk e fuel c tc
            items delivered cs reqs page hapi hm ht]
          exact ih _ _ _ _ _ _ (nodup_akeys_aset _ _ _ h)
        · rw [Bool.not_eq_true] at ht
          rw [fetchAllLoop_step_nocursor api hasInsert insertOk e fuel c tc
            items delivered cs reqs page hapi hm ht]
          exact h
      · rw [Bool.not_eq_true] at hm
        rw [fetchAllLoop_step_complete api hasInsert insertOk e fuel c tc
          items delivered cs reqs page hapi hm]
        exact h

theorem fetchAllLoop_failed_saves (api : Option String → Option Page)
    (hasInsert : Bool) (insertOk : List Nat → Bool) (e : String) :
    ∀ fuel c totalCount items delivered cs reqs,
      (fetchAllLoop api hasInsert insertOk e fuel c totalCount items delivered
        cs reqs).outcome = Outcome.fetchFailed →
      strTruthy (fetchAllLoop api hasInsert insertOk e fuel c totalCount items
        delivered cs reqs).finalCursor = true →
      alookup e (fetchAllLoop api hasInsert insertOk e fuel c totalCount items
        delivered cs reqs).cursors =
        some { count := totalCount + (fetchAllLoop api hasInsert insertOk e
                 fuel c totalCount items delivered cs reqs).items.length,
               cursor := (fetchAllLoop api hasInsert insertOk e fuel c
                 totalCount items delivered cs reqs).finalCursor,
               offset := none } := by
  intro fuel
  induction fuel with
  | zero =>
    intro c tc items delivered cs reqs hout htr
    simp [fetchAllLoop] at hout
  | succ fuel ih =>
    intro c tc items delivered cs reqs
    cases hapi : api c with
    | none =>
      rw [fetchAllLoop_step_failed api hasInsert insertOk e fuel c tc items
        delivered cs reqs hapi]
      intro _ htr
      simp only at htr
      simp [save_cursor, htr, alookup_aset_self]
    | some page =>
      by_cases hm : optTruthy page.pagination.has_more = true
      · by_cases ht : strTruthy (pyOr page.pagination.next_cursor
            page.pagination.cursor) = true
        · rw [fetchAllLoop_step_continue api hasInsert insertOk e fuel c tc
            items delivered cs reqs page hapi hm ht]
          exact ih _ _ _ _ _ _
        · rw [Bool.not_eq_true] at ht
          rw [fetchAllLoop_step_nocursor api hasInsert insertOk e fuel c tc
            items delivered cs reqs page hapi hm ht]
          intro hout
          simp at hout
      · rw [Bool.not_eq_true] at hm
        rw [fetchAllLoop_step_complete api hasInsert insertOk e fuel c tc
          items delivered cs reqs page hapi hm]
        intro hout
        simp at hout

/-- C6: on every run of `fetch_all`, (a) if the run terminates because a
page reported falsy `has_more` (confirmed completion), the endpoint's
checkpoint entry is absent afterwards (cleared); (b) if the run instead
terminates by retry exhaustion (`fetch_page` returned `None`) while
holding a truthy cursor, that cursor and the cumulative item count
(resumed count plus items loaded this run) are persisted via
`save_cursor` and the checkpoint is not cleared. -/
theorem checkpoint_lifecycle (api : Option String → Option Page)
    (hasInsert : Bool) (insertOk : List Nat → Bool) (e : String) (fuel : Nat)
    (resume : Bool) (cs : Cursors) (hnodup : (akeys cs).Nodup) :
    ((fetchAll api hasInsert insertOk e fuel resume cs).outcome =
        Outcome.completedOk →
      alookup e (fetchAll api hasInsert insertOk e fuel resume cs).cursors = none) ∧
    ((fetchAll api hasInsert insertOk e fuel resume cs).outcome =
        Outcome.fetchFailed →
      strTruthy (fetchAll api hasInsert insertOk e fuel resume cs).finalCursor = true →
      alookup e (fetchAll api hasInsert insertOk e fuel resume cs).cursors =
        some { count := (resumeLoad resume e cs).2 +
                 (fetchAll api hasInsert insertOk e fuel resume cs).items.length,
               cursor := (fetchAll api hasInsert insertOk e fuel resume cs).finalCursor,
               offset := none }) := by
  constructor
  · intro hout
    rw [fetchAll_outcome] at hout
    rw [fetchAll_cursors, if_pos hout]
    have hnd := fetchAllLoop_nodup api hasInsert insertOk e fuel
      (resumeLoad resume e cs).1 (resumeLoad resume e cs).2 [] [] cs [] hnodup
    unfold clear_cursor
    by_cases hmem : amem e (fetchAllLoop api hasInsert insertOk e fuel
        (resumeLoad resume e cs).1 (resumeLoad resume e cs).2 [] [] cs
        []).cursors = true
    · simp only [hmem, if_true]
      exact alookup_aerase_self hnd
    · rw [Bool.not_eq_true] at hmem
      simp only [hmem, Bool.false_eq_true, if_false]
      exact alookup_eq_none_of_not_amem hmem
  · intro hout htr
    rw [fetchAll_outcome] at hout
    rw [fetchAll_finalCursor] at htr
    rw [fetchAll_cursors, if_neg (by simp [hout]), fetchAll_items,
      fetchAll_finalCursor]
    exact fetchAllLoop_failed_saves api hasInsert insertOk e fuel
      (resumeLoad resume e cs).1 (resumeLoad resume e cs).2 [] [] cs []
      hout htr

/-- Oracle whose first page succeeds (cursor "A") and whose second fetch
exhausts all retries. -/
def failingApi : Option String → Option Page := fun c =>
  match c with
  | none =>
    some { data := [1], pagination := { has_more := some true, next_cursor := some "A" } }
  | some _ => none

/-- Witness for C6 on the concrete failing stream: cursor "A" and count 1
are persisted. -/
theorem checkpoint_lifecycle_witness :
    alookup "sessions" (fetchAll failingApi true (fun _ => true) "sessions" 5
      true []).cursors =
      some { count := 1, cursor := some "A", offset := none } := by
  have h := (checkpoint_lifecycle failingApi true (fun _ => true) "sessions" 5
    true [] (by simp [akeys])).2 (by decide) (by decide)
  exact h.trans (by decide)

/-- Destination table of one sink: rows keyed by the vendor id (the
`ON CONFLICT (id)` key), holding the non-key column values and the
`loaded_at` timestamp.  `aset` on this list is exactly the semantics of
`INSERT ... ON CONFLICT (id) DO UPDATE SET <all mutable columns>,
loaded_at = CURRENT_TIMESTAMP`: an existing row is overwritten in place,
a new id is appended. -/
abbrev SinkTable (α : Type v) := List (Option String × α × Nat)

/-- Projection of a table dropping the `loaded_at` column. -/
def strip {α : Type v} (t : SinkTable α) : List (Option String × α) :=
  t.map (fun p => (p.1, p.2.1))

/-- One `execute_values` page upsert: fold the page's rows left to right,
upserting each extracted (key, values) pair with the statement's
timestamp. -/
def upsertPage {ι : Type u} {α : Type v} (f : ι → Option String × α)
    (t : SinkTable α) (l : List ι) (now : Nat) : SinkTable α :=
  l.foldl (fun t it => aset (f it).1 ((f it).2, now) t) t

/-- Timestamp-free image of a page upsert. -/
def spage {κ : Type u} {α : Type v} [DecidableEq κ]
    (s : List (κ × α)) (kvs : List (κ × α)) : List (κ × α) :=
  kvs.foldl (fun s kv => aset kv.1 kv.2 s) s

/-- First-of-two on options (Python-style fallback). -/
def ofirst {α : Type v} (a b : Option α) : Option α :=
  match a with
  | some x => some x
  | none => b

/-- Value of the LAST occurrence of a key in a key-value list. -/
def lastVal {κ : Type u} {α : Type v} [DecidableEq κ]
    (kvs : List (κ × α)) (k : κ) : Option α :=
  alookup k kvs.reverse

section SpageLemmas

variable {κ : Type u} {α : Type v} [DecidableEq κ]

theorem alookup_append (k : κ) (xs ys : List (κ × α)) :
    alookup k (xs ++ ys) = ofirst (alookup k xs) (alookup k ys) := by
  induction xs with
  | nil => simp [alookup, ofirst]
  | cons p ps ih =>
    by_cases h : p.1 = k <;> simp [alookup, ofirst, h, ih]

theorem alookup_spage (kvs : List (κ × α)) : ∀ (s : List (κ × α)) (k : κ),
    alookup k (spage s kvs) = ofirst (lastVal kvs k) (alookup k s) := by
  induction kvs with
  | nil => intro s k; simp [spage, lastVal, alookup, ofirst]
  | cons kv rest ih =>
    intro s k
    have h1 : spage s (kv :: rest) = spage (aset kv.1 kv.2 s) rest := rfl
    rw [h1, ih, alookup_aset]
    have h2 : lastVal (kv :: rest) k =
        ofirst (lastVal rest k) (if kv.1 = k then some kv.2 else none) := by
      simp [lastVal, List.reverse_cons, alookup_append, alookup]
    rw [h2]
    cases hlv : lastVal rest k <;> by_cases hk : kv.1 = k <;> simp [ofirst, hk]

theorem amem_aset_self (k : κ) (v : α) (m : List (κ × α)) :
    amem k (aset k v m) = true := by
  induction m with
  | nil => simp [aset, amem]
  | cons p ps ih =>
    by_cases h : p.1 = k <;> simp [aset, amem, h, ih]

theorem amem_aset_of (k k2 : κ) (v : α) (m : List (κ × α))
    (h : amem k2 m = true) : amem k2 (aset k v m) = true := by
  induction m with
  | nil => simp [amem] at h
  | cons p ps ih =>
    by_cases hp : p.1 = k
    · subst hp
      simpa [aset, amem] using h
    · simp [aset, amem, hp] at h ⊢
      rcases h with h | h
      · exact Or.inl h
      · exact Or.inr (ih h)

theorem akeys_spage_of_mem (kvs : List (κ × α)) : ∀ (s : List (κ × α)),
    (∀ kv ∈ kvs, amem kv.1 s = true) → akeys (spage s kvs) = akeys s := by
  induction kvs with
  | nil => intro s _; rfl
  | cons kv rest ih =>
    intro s h
    have hm : amem kv.1 s = true := h kv (List.mem_cons_self _ _)
    have h1 : spage s (kv :: rest) = spage (aset kv.1 kv.2 s) rest := rfl
    rw [h1, ih _ (fun kv2 hkv2 =>
      amem_aset_of _ _ _ _ (h kv2 (List.mem_cons_of_mem _ hkv2)))]
    rw [akeys_aset, if_pos hm]

theorem amem_spage_of_mem (kvs : List (κ × α)) : ∀ (s : List (κ × α)) (k : κ),
    amem k s = true → amem k (spage s kvs) = true := by
  induction kvs with
  | nil => intro s k h; exact h
  | cons kv rest ih =>
    intro s k h
    exact ih _ _ (amem_aset_of _ _ _ _ h)

theorem amem_spage_self (kvs : List (κ × α)) : ∀ (s : List (κ × α)),
    ∀ kv ∈ kvs, amem kv.1 (spage s kvs) = true := by
  induction kvs with
  | nil => intro s kv h; cases h
  | cons kv0 rest ih =>
    intro s kv hkv
    rcases List.mem_cons.mp hkv with h | h
    · subst h
      exact amem_spage_of_mem rest _ _ (amem_aset_self kv.1 kv.2 s)
    · exact ih _ kv h

theorem nodup_akeys_spage (kvs : List (κ × α)) : ∀ (s : List (κ × α)),
    (akeys s).Nodup → (akeys (spage s kvs)).Nodup := by
  induction kvs with
  | nil => intro s h; exact h
  | cons kv rest ih =>
    intro s h
    exact ih _ (nodup_akeys_aset _ _ _ h)

theorem alist_ext : ∀ (s1 s2 : List (κ × α)), (akeys s1).Nodup →
    akeys s1 = akeys s2 → (∀ k, alookup k s1 = alookup k s2) → s1 = s2 := by
  intro s1
  induction s1 with
  | nil =>
    intro s2 _ hkeys _
    cases s2 with
    | nil => rfl
    | cons q qs => simp [akeys] at hkeys
  | cons p ps ih =>
    intro s2 hnd hkeys hlook
    cases s2 with
    | nil => simp [akeys] at hkeys
    | cons q qs =>
      simp only [akeys, List.map_cons] at hkeys
      injection hkeys with hk htl
      have hv : p.2 = q.2 := by
        have hlk := hlook p.1
        simp [alookup, ← hk] at hlk
        exact hlk
      simp only [akeys, List.map_cons, List.nodup_cons] at hnd
      have htails : ∀ k, alookup k ps = alookup k qs := by
        intro k
        by_cases hkp : k = p.1
        · subst hkp
          have hn1 : alookup p.1 ps = none := by
            apply alookup_eq_none_of_not_amem
            have hmm : ¬ amem p.1 ps = true := by
              rw [amem_iff_mem_akeys]
              simpa [akeys] using hnd.1
            simpa using hmm
          have hn2 : alookup p.1 qs = none := by
            apply alookup_eq_none_of_not_amem
            have hmm : ¬ amem p.1 qs = true := by
              rw [amem_iff_mem_akeys]
              simp only [akeys, ← htl]
              simpa [akeys] using hnd.1
            simpa using hmm
          rw [hn1, hn2]
        · have hne : ¬ p.1 = k := fun hh => hkp hh.symm
          have hne2 : ¬ q.1 = k := by rw [← hk]; exact hne
          have hlk := hlook k
          simp only [alookup, if_neg hne, if_neg hne2] at hlk
          exact hlk
      have hps : ps = qs := ih qs hnd.2 (by simpa [akeys] using htl) htails
      have hpq : p = q := Prod.ext hk hv
      rw [hpq, hps]

theorem spage_idem (kvs : List (κ × α)) (s : List (κ × α))
    (h : (akeys s).Nodup) : spage (spage s kvs) kvs = spage s kvs := by
  apply alist_ext
  · exact nodup_akeys_spage kvs _ (nodup_akeys_spage kvs s h)
  · exact akeys_spage_of_mem kvs (spage s kvs) (amem_spage_self kvs s)
  · intro k
    rw [alookup_spage, alookup_spage]
    cases hlv : lastVal kvs k <;> simp [ofirst, hlv]

end SpageLemmas

theorem strip_aset {α : Type v} (k : Option String) (c : α) (n : Nat)
    (t : SinkTable α) : strip (aset k (c, n) t) = aset k c (strip t) := by
  induction t with
  | nil => simp [aset, strip]
  | cons p ps ih =>
    by_cases h : p.1 = k
    · simp [aset, strip, h]
    · have ha : aset k (c, n) (p :: ps) = p :: aset k (c, n) ps := by
        simp [aset, h]
      rw [ha]
      show (p.1, p.2.1) :: strip (aset k (c, n) ps) = aset k c (strip (p :: ps))
      rw [ih]
      have hb : aset k c (strip (p :: ps)) = (p.1, p.2.1) :: aset k c (strip ps) := by
        show aset k c ((p.1, p.2.1) :: strip ps) = _
        simp [aset, h]
      rw [hb]

theorem akeys_strip {α : Type v} (t : SinkTable α) :
    akeys (strip t) = akeys t := by
  induction t with
  | nil => rfl
  | cons p ps ih =>
    show p.1 :: akeys (strip ps) = p.1 :: akeys ps
    rw [ih]

theorem strip_upsertPage {ι : Type u} {α : Type v}
    (f : ι → Option String × α) (l : List ι) : ∀ (t : SinkTable α) (now : Nat),
    strip (upsertPage f t l now) = spage (strip t) (l.map f) := by
  induction l with
  | nil => intro t now; rfl
  | cons it rest ih =>
    intro t now
    have h1 : upsertPage f t (it :: rest) now =
        upsertPage f (aset (f it).1 ((f it).2, now) t) rest now := rfl
    have h2 : spage (strip t) ((it :: rest).map f) =
        spage (aset (f it).1 (f it).2 (strip t)) (rest.map f) := rfl
    rw [h1, h2, ih, strip_aset]

theorem upsertPage_idem {ι : Type u} {α : Type v}
    (f : ι → Option String × α) (t : SinkTable α) (l : List ι) (n1 n2 : Nat)
    (h : (akeys t).Nodup) :
    strip (upsertPage f (upsertPage f t l n1) l n2) =
      strip (upsertPage f t l n1) := by
  rw [strip_upsertPage f l (upsertPage f t l n1) n2, strip_upsertPage f l t n1]
  exact spage_idem (l.map f) (strip t) (by rw [akeys_strip]; exact h)

/-- Fields of a funnel record as extracted by `insert_funnels`
(`raw_funnelfox.py` lines 287-301) via `item.get(...)`; scalar vendor
values are modeled opaquely as strings. -/
structure FunnelItem where
  id : Option String := none
  «alias» : Option String := none
  environment : Option String := none
  last_published_at : Option String := none
  status : Option String := none
  tags : List String := []
  title : Option String := none
  type : Option String := none
  variation_count : Option Nat := none
  version : Option Nat := none
deriving DecidableEq, Repr

/-- Non-key columns of `raw_funnelfox.funnels` written by the upsert
(`ON CONFLICT (id) DO UPDATE SET ...`, lines 275-285). -/
structure FunnelRow where
  «alias» : Option String := none
  environment : Option String := none
  last_published_at : Option String := none
  status : Option String := none
  tags : List String := []
  title : Option String := none
  type : Option String := none
  variation_count : Option Nat := none
  version : Option Nat := none
deriving DecidableEq, Repr

/-- Key and column values for one funnels row (the `values` tuple of
lines 287-301). -/
def funnelKV (it : FunnelItem) : Option String × FunnelRow :=
  (it.id,
    { «alias» := it.«alias»
      environment := it.environment
      last_published_at := it.last_published_at
      status := it.status
      tags := it.tags
      title := it.title
      type := it.type
      variation_count := it.variation_count
      version := it.version })

/-- Model of `insert_funnels` (`raw_funnelfox.py` lines 264-304): return
unchanged on an empty page, otherwise upsert each row by id with the
statement timestamp `now` standing for `CURRENT_TIMESTAMP`. -/
def insert_funnels (t : SinkTable FunnelRow) (data : List FunnelItem)
    (now : Nat) : SinkTable FunnelRow :=
  if data.isEmpty then t else upsertPage funnelKV t data now

/-- Nested `{"profile": {"id": ...}}` object of a subscription record. -/
structure SubProfile where
  id : Option String := none
deriving DecidableEq, Repr

/-- Fields of a subscription record as extracted by
`insert_subscriptions` (`raw_funnelfox.py` lines 404-426). -/
structure SubscriptionItem where
  id : Option String := none
  billing_interval : Option String := none
  billing_interval_count : Option Nat := none
  created_at : Option String := none
  currency : Option String := none
  funnel_version : Option Nat := none
  payment_provider : Option String := none
  period_ends_at : Option String := none
  period_starts_at : Option String := none
  price : Option String := none
  price_usd : Option String := none
  profile : Option SubProfile := none
  profile_id : Option String := none
  psp_id : Option String := none
  renews : Option Bool := none
  sandbox : Option Bool := none
  status : Option String := none
  updated_at : Option String := none
deriving DecidableEq, Repr

/-- Non-key columns of `raw_funnelfox.subscriptions` written by the
upsert (lines 385-402). -/
structure SubscriptionRow where
  billing_interval : Option String := none
  billing_interval_count : Option Nat := none
  created_at : Option String := none
  currency : Option String := none
  funnel_version : Option Nat := none
  payment_provider : Option String := none
  period_ends_at : Option String := none
  period_starts_at : Option String := none
  price : Option String := none
  price_usd : Option String := none
  profile_id : Option String := none
  psp_id : Option String := none
  renews : Option Bool := none
  sandbox : Option Bool := none
  status : Option String := none
  updated_at : Option String := none
deriving DecidableEq, Repr

/-- The profile-id extraction of line 418: when `profile` is a nested
object, take its `id`, otherwise fall back to the flat `profile_id`. -/
def subProfileId (it : SubscriptionItem) : Option String :=
  match it.profile with
  | some p => p.id
  | none => it.profile_id

/-- Key and column values for one subscriptions row (lines 404-426). -/
def subscriptionKV (it : SubscriptionItem) : Option String × SubscriptionRow :=
  (it.id,
    { billing_interval := it.billing_interval
      billing_interval_count := it.billing_interval_count
      created_at := it.created_at
      currency := it.currency
      funnel_version := it.funnel_version
      payment_provider := it.payment_provider
      period_ends_at := it.period_ends_at
      period_starts_at := it.period_starts_at
      price := it.price
      price_usd := it.price_usd
      profile_id := subProfileId it
      psp_id := it.psp_id
      renews := it.renews
      sandbox := it.sandbox
      status := it.status
      updated_at := it.updated_at })

/-- Model of `insert_subscriptions` (`raw_funnelfox.py` lines 373-429). -/
def insert_subscriptions (t : SinkTable SubscriptionRow)
    (data : List SubscriptionItem) (now : Nat) : SinkTable SubscriptionRow :=
  if data.isEmpty then t else upsertPage subscriptionKV t data now

/-- C7: applying `insert_funnels` (resp. `insert_subscriptions`) twice
with identical page content yields the same destination table as
applying it once, up to the `loaded_at` column: no duplicate rows keyed
by id and no double-counted values.  The `Nodup` hypotheses are the
primary-key invariant of the destination tables; the page-key `Nodup`
hypotheses restrict to pages on which the multi-row
`INSERT ... ON CONFLICT` statement is defined (Postgres rejects two rows
with the same id in one statement). -/
theorem idempotent_upsert (tf : SinkTable FunnelRow)
    (ts : SinkTable SubscriptionRow) (df : List FunnelItem)
    (ds : List SubscriptionItem) (n1 n2 : Nat)
    (hf : (akeys tf).Nodup) (hs : (akeys ts).Nodup)
    (_hdf : (df.map FunnelItem.id).Nodup)
    (_hds : (ds.map SubscriptionItem.id).Nodup) :
    strip (insert_funnels (insert_funnels tf df n1) df n2) =
      strip (insert_funnels tf df n1) ∧
    strip (insert_subscriptions (insert_subscriptions ts ds n1) ds n2) =
      strip (insert_subscriptions ts ds n1) := by
  constructor
  · unfold insert_funnels
    by_cases hd : df.isEmpty = true
    · simp [hd]
    · rw [Bool.not_eq_true] at hd
      simp only [hd, Bool.false_eq_true, if_false]
      exact upsertPage_idem funnelKV tf df n1 n2 hf
  · unfold insert_subscriptions
    by_cases hd : ds.isEmpty = true
    · simp [hd]
    · rw [Bool.not_eq_true] at hd
      simp only [hd, Bool.false_eq_true, if_false]
      exact upsertPage_idem subscriptionKV ts ds n1 n2 hs

/-- Witness for C7 at a concrete one-row page over an empty table. -/
theorem idempotent_upsert_witness :
    strip (insert_funnels (insert_funnels []
        [{ id := some "f1", title := some "T" }] 0)
        [{ id := some "f1", title := some "T" }] 1) =
      strip (insert_funnels [] [{ id := some "f1", title := some "T" }] 0) ∧
    strip (insert_subscriptions (insert_subscriptions []
        [{ id := some "s1", status := some "active" }] 0)
        [{ id := some "s1", status := some "active" }] 1) =
      strip (insert_subscriptions []
        [{ id := some "s1", status := some "active" }] 0) :=
  idempotent_upsert [] [] [{ id := some "f1", title := some "T" }]
    [{ id := some "s1", status := some "active" }] 0 1
    (by simp [akeys]) (by simp [akeys]) (by simp) (by simp)

/-- Outcome of one per-session replies HTTP attempt, as classified by the
`except` clause of `fetch_session_replies` (Timeout / HTTPError /
ConnectionError): a response with status and parsed reply records, or a
caught connection-level exception. -/
inductive RTry where
  | resp (status : Nat) (replies : List Nat)
  | timeout
  | connErr
deriving DecidableEq, Repr

/-- Retryable statuses of the per-session loop (`raw_funnelfox.py` line
540) — note 524 is absent here, unlike `fetch_page`. -/
def SR_RETRY_STATUSES : List Nat := [408, 429, 500, 502, 503, 504]

/-- Model of the inner retry loop of `fetch_session_replies`
(`raw_funnelfox.py` lines 523-549): a 404 breaks at once keeping the
response (before `raise_for_status`); a success keeps the response; a
caught non-retryable `HTTPError` breaks keeping the error response; a
retryable failure sleeps and retries, and on the last attempt the
response is set to `None`.  Returns the final response (status, parsed
replies) or `None`. -/
def sr_inner (att : Nat → RTry) (maxR : Nat) : Nat → Nat → Option (Nat × List Nat)
  | _, 0 => none
  | retry, fuel + 1 =>
    match att retry with
    | .resp s replies =>
      if s = 404 then some (s, replies)
      else if s < 400 then some (s, replies)
      else if s ∈ SR_RETRY_STATUSES then
        if retry < maxR - 1 then sr_inner att maxR (retry + 1) fuel
        else none
      else some (s, replies)
    | _ =>
      if retry < maxR - 1 then sr_inner att maxR (retry + 1) fuel
      else none

/-- Per-run observables of `fetch_session_replies`: the
`insert_session_replies` calls performed (session id with its replies)
and the two counters. -/
structure SRState where
  inserts : List (String × List Nat) := []
  totalReplies : Nat := 0
  sessionsWithReplies : Nat := 0
deriving DecidableEq, Repr

/-- Model of one iteration of the session loop of
`fetch_session_replies` (`raw_funnelfox.py` lines 511-572): skip
sessions without a truthy id; run the inner retry loop; a `None`
response or a 404 means zero records — nothing inserted, continue to the
next session; otherwise insert the parsed replies when non-empty and
bump the counters. -/
def sr_step (att : String → Nat → RTry) (st : SRState)
    (sess : Option String) : SRState :=
  match sess with
  | none => st
  | some sid =>
    if sid = "" then st
    else
      match sr_inner (att sid) 5 0 5 with
      | none => st
      | some (s, replies) =>
        if s = 404 then st
        else if replies.isEmpty then st
        else
          { inserts := st.inserts ++ [(sid, replies)]
            totalReplies := st.totalReplies + replies.length
            sessionsWithReplies := st.sessionsWithReplies + 1 }

/-- Model of `fetch_session_replies` (`raw_funnelfox.py` lines 498-575)
over the sessions' `session.get("id")` values, with `att` giving each
session's per-attempt HTTP outcomes. -/
def fetch_session_replies (att : String → Nat → RTry)
    (sessions : List (Option String)) (st : SRState) : SRState :=
  sessions.foldl (sr_step att) st

/-- Model of `SessionRepliesStream._request` (`tap_funnelfox/streams.py`
lines 252-267): a raised error whose response has status 404 is turned
into an empty 404 response (`EmptyResponse` with body `[]`); anything
else passes through. -/
def sr_request (underlying : Except Nat (Nat × List Nat)) :
    Except Nat (Nat × List Nat) :=
  match underlying with
  | .ok r => .ok r
  | .error s => if s = 404 then .ok (404, []) else .error s

/-- Model of `SessionRepliesStream.parse_response`
(`tap_funnelfox/streams.py` lines 227-240): a 404 response yields no
records; otherwise the body's records (bare list or wrapped in `data`)
are yielded. -/
def sr_parse_response (status : Nat) (records : List Nat) : List Nat :=
  if status = 404 then [] else records

/-- C9: a per-session replies fetch answering HTTP 404 surfaces no
error and inserts nothing for that session, and the sync proceeds to the
next session unchanged: processing `pre ++ [s] ++ post` produces exactly
the state of processing `pre ++ post`.  In the tap,
`SessionRepliesStream._request` converts a raised 404 into an empty
404 response, for which `parse_response` yields no records. -/
theorem session_replies_404 (att : String → Nat → RTry)
    (pre post : List (Option String)) (sid : String) (rs : List Nat)
    (st : SRState) (hsid : ¬ sid = "")
    (h404 : att sid 0 = RTry.resp 404 rs) :
    fetch_session_replies att (pre ++ some sid :: post) st =
      fetch_session_replies att (pre ++ post) st ∧
    sr_request (Except.error 404) = Except.ok (404, []) ∧
    sr_parse_response 404 rs = [] := by
  refine ⟨?_, rfl, rfl⟩
  have hstep : ∀ s0 : SRState, sr_step att s0 (some sid) = s0 := by
    intro s0
    have hinner : sr_inner (att sid) 5 0 5 = some (404, rs) := by
      simp [sr_inner, h404]
    simp [sr_step, hsid, hinner]
  unfold fetch_session_replies
  rw [List.foldl_append, List.foldl_append]
  show List.foldl (sr_step att)
      (sr_step att (List.foldl (sr_step att) st pre) (some sid)) post = _
  rw [hstep]

/-- Oracle answering 404 for every session. -/
def all404Att : String → Nat → RTry := fun _ _ => RTry.resp 404 []

/-- Witness for C9 on a concrete three-session run. -/
theorem session_replies_404_witness :
    fetch_session_replies all404Att [some "a", some "b", some "c"] {} =
      fetch_session_replies all404Att [some "a", some "c"] {} :=
  (session_replies_404 all404Att [some "a"] [some "c"] "b" [] {}
    (by decide) rfl).1
